import Mathlib

/-!
Verification of the URL-routing / content-addressing contract of the
`app_blog` application (files `app_blog/urls.py`, `app_blog/admin.py`,
`app_blog/tests_urls.py`).

The Routing Layer is embedded from `urls.py`: each `path(...)` pattern is a
list of literal pieces and converter pieces.  The framework's `path`
converters are embedded by their documented regular expressions:
`<int:...>` matches `[0-9]+` (decimal value via `int(...)`), and
`<slug:...>` matches `[-a-zA-Z0-9_]+`.  Because every converter character
class excludes `'/'` and each converter occurrence is followed by a literal
beginning with `'/'` (or the end of the pattern), greedy longest-prefix
capture without backtracking is equivalent to the anchored regex match, so
`matchParts` below captures exactly the regex semantics of these four
patterns.  Resolution tries the patterns in declaration order, and reverse
construction substitutes the rendered parameters into the pattern and
re-validates them against it, as the framework's `reverse` does.

The Query Layer (`views.py`) and the entity definitions (`models.py`) are
not among the provided sources; they are modelled from the specification
(sections 3, 4.2, 4.4, 6), as indicated on each such definition.
-/

namespace Blog

/-- Character class of the `int` path converter: `[0-9]`. -/
def isIntChar (c : Char) : Bool := '0' ≤ c && c ≤ '9'

/-- Character class of the `slug` path converter: `[-a-zA-Z0-9_]`. -/
def isSlugChar (c : Char) : Bool :=
  ('a' ≤ c && c ≤ 'z') || ('A' ≤ c && c ≤ 'Z') || ('0' ≤ c && c ≤ '9') ||
    c == '-' || c == '_'

/-- One piece of a `path(...)` pattern: a literal run of characters, or a
converter capturing a nonempty run of characters from its class. -/
inductive Part where
  | lit : List Char → Part
  | conv : (Char → Bool) → Part

/-- Match a pattern against a path (both leading-slash-stripped), returning
the captured groups.  Converters capture greedily; as explained in the
header this coincides with the anchored regex semantics of these patterns. -/
def matchParts : List Part → List Char → Option (List (List Char))
  | [], [] => some []
  | [], _ :: _ => none
  | Part.lit l :: ps, cs =>
      if l.isPrefixOf cs then matchParts ps (cs.drop l.length) else none
  | Part.conv p :: ps, cs =>
      let cap := cs.takeWhile p
      if cap.isEmpty then none
      else Option.map (fun caps => cap :: caps) (matchParts ps (cs.drop cap.length))

/-- Pattern `path(r'', ...)`, name `home` (urls.py line 5). -/
def homeParts : List Part := []

/-- Pattern `path(r'articles', ...)`, name `articles-list` (urls.py line 6). -/
def articlesListParts : List Part := [Part.lit "articles".data]

/-- Pattern `path(r'articles/category/<slug:slug>/', ...)`, name
`articles-category-list` (urls.py line 7). -/
def categoryListParts : List Part :=
  [Part.lit "articles/category/".data, Part.conv isSlugChar, Part.lit "/".data]

/-- Pattern `path(r'articles/<int:year>/<int:month>/<int:day>/<slug:slug>/', ...)`,
name `news-detail` (urls.py line 8). -/
def newsDetailParts : List Part :=
  [Part.lit "articles/".data, Part.conv isIntChar, Part.lit "/".data,
   Part.conv isIntChar, Part.lit "/".data, Part.conv isIntChar, Part.lit "/".data,
   Part.conv isSlugChar, Part.lit "/".data]

/-- Decimal value of a captured digit run, as `int(...)` computes it. -/
def decimalValue (cs : List Char) : Nat :=
  cs.foldl (fun n c => 10 * n + (c.toNat - 48)) 0

/-- Outcome of route resolution: one of the four named operations of
`urlpatterns`, with its extracted, converted parameters. -/
inductive Resolved where
  | home
  | articlesList
  | articlesCategoryList (slug : String)
  | newsDetail (year month day : Nat) (slug : String)
deriving DecidableEq, Repr

/-- Try the four patterns of `urlpatterns` in declaration order on the path
with its leading slash already stripped; the first match wins. -/
def resolvePath (cs : List Char) : Option Resolved :=
  match matchParts homeParts cs with
  | some _ => some Resolved.home
  | none =>
    match matchParts articlesListParts cs with
    | some _ => some Resolved.articlesList
    | none =>
      match matchParts categoryListParts cs with
      | some caps => some (Resolved.articlesCategoryList (String.mk (caps.getD 0 [])))
      | none =>
        match matchParts newsDetailParts cs with
        | some caps =>
            some (Resolved.newsDetail (decimalValue (caps.getD 0 []))
              (decimalValue (caps.getD 1 [])) (decimalValue (caps.getD 2 []))
              (String.mk (caps.getD 3 [])))
        | none => none

/-- Resolve a full request path: it must begin with `'/'`; the remainder is
matched against `urlpatterns`.  `none` is the "not found" (404) outcome. -/
def resolve (path : String) : Option Resolved :=
  match path.data with
  | '/' :: rest => resolvePath rest
  | _ => none

/-- Decimal rendering of a natural number, one digit per character, as the
`int` converter's `to_url` (`str(value)`) renders parameters. -/
def digitChar (d : Nat) : Char := Char.ofNat (48 + d % 10)

def natDecimalAux : Nat → Nat → List Char → List Char
  | 0, _, acc => acc
  | fuel + 1, n, acc =>
      if n = 0 then acc else natDecimalAux fuel (n / 10) (digitChar (n % 10) :: acc)

def natDecimal (n : Nat) : List Char :=
  if n = 0 then ['0'] else natDecimalAux n n []

/-- Substitute already-rendered parameters for the converters of a pattern,
producing the candidate path (leading slash not yet attached). -/
def buildPath : List Part → List (List Char) → List Char
  | [], _ => []
  | Part.lit l :: ps, args => l ++ buildPath ps args
  | Part.conv _ :: ps, args => args.headD [] ++ buildPath ps args.tail

/-- Reverse construction for one pattern: build the candidate from the
rendered parameters and re-validate it against the pattern, as the
framework's `reverse` does; on success the leading slash is attached. -/
def reversePath (parts : List Part) (args : List (List Char)) : Option String :=
  let candidate := buildPath parts args
  if (matchParts parts candidate).isSome then
    some (String.mk ('/' :: candidate))
  else none

/-- Reverse construction `reverse('home')`. -/
def reverseHome : Option String := reversePath homeParts []

/-- Reverse construction `reverse('articles-list')`. -/
def reverseArticlesList : Option String := reversePath articlesListParts []

/-- Reverse construction `reverse('articles-category-list', kwargs={slug: s})`. -/
def reverseCategoryList (slug : String) : Option String :=
  reversePath categoryListParts [slug.data]

/-- Reverse construction `reverse('news-detail', kwargs={year: y, month: m, day: d, slug: s})`;
the integer parameters are rendered in decimal by the `int` converter. -/
def reverseNewsDetail (y m d : Nat) (slug : String) : Option String :=
  reversePath newsDetailParts [natDecimal y, natDecimal m, natDecimal d, slug.data]

/-- A well-formed `int` path segment: a nonempty run of decimal digits
(this is everything the `int` converter's regex `[0-9]+` accepts). -/
def isIntSegment (l : List Char) : Bool := !l.isEmpty && l.all isIntChar

/-- The shape of a request path (leading slash stripped) addressed at the
`articles-category-list` pattern with slug segment `s`. -/
def categoryPath (s : List Char) : List Char :=
  "articles/category/".data ++ s ++ ['/']

/-- The shape of a request path (leading slash stripped) addressed at the
`news-detail` pattern with segments `y`, `m`, `d`, `s`. -/
def newsPath (y m d s : List Char) : List Char :=
  "articles/".data ++ y ++ '/' :: (m ++ '/' :: (d ++ '/' :: (s ++ ['/'])))

/-- Whether a converter's capture may stop in front of this remainder: the
remainder is exhausted or begins with a character outside the class. -/
def boundary (p : Char → Bool) : List Char → Bool
  | [] => true
  | c :: _ => !(p c)

/-- Declarative reading of `matchParts`: the path splits into the pattern's
literals and nonempty converter captures, each capture maximal at its
position (the remainder after it starts outside the converter's class). -/
inductive Matches : List Part → List Char → List (List Char) → Prop where
  | nil : Matches [] [] []
  | lit (l : List Char) (ps : List Part) (cs : List Char) (caps : List (List Char)) :
      Matches ps cs caps → Matches (Part.lit l :: ps) (l ++ cs) caps
  | conv (p : Char → Bool) (ps : List Part) (cap cs : List Char)
      (caps : List (List Char)) :
      cap ≠ [] → cap.all p = true → boundary p cs = true →
      Matches ps cs caps → Matches (Part.conv p :: ps) (cap ++ cs) (cap :: caps)

/-- Modelled from the spec: `models.py` is not among the provided sources.
Spec section 3: Category has a display name and a unique URL-safe slug. -/
structure Category where
  category : String
  slug : String
deriving DecidableEq, Repr

/-- Modelled from the spec: `models.py` is not among the provided sources.
The calendar-day part of an Article's `pub_date` (a date-time); only the
year/month/day components are observed by the specified operations. -/
structure PubDate where
  year : Nat
  month : Nat
  day : Nat
deriving DecidableEq, Repr

/-- Modelled from the spec: `models.py` is not among the provided sources.
Spec section 3: Article has title, description, slug, pub_date, a
main_page flag and a reference to at most one Category. -/
structure Article where
  title : String
  description : String
  slug : String
  pub_date : PubDate
  main_page : Bool
  category : Option Category
deriving DecidableEq, Repr

/-- Modelled from the spec: `models.py` is not among the provided sources.
Spec section 3: ArticleImage has a title and an image file reference, plus
the numeric primary key every stored entity carries. -/
structure ArticleImage where
  pk : Nat
  title : String
  image : String
deriving DecidableEq, Repr

/-- A value bound in the template context handed to the Presentation
Layer: either an ordered sequence of articles or a single article. -/
inductive ContextVal where
  | items : List Article → ContextVal
  | item : Article → ContextVal
deriving DecidableEq, Repr

/-- A successful response: status, template name, and the named template
context, exactly as handed to the Presentation Layer. -/
structure HttpResponse where
  status : Nat
  template : String
  context : List (String × ContextVal)
deriving DecidableEq, Repr

/-- The "not found" failure surfaced as HTTP 404. -/
inductive Http404 where
  | notFound
deriving DecidableEq, Repr

/-- Modelled from the spec: `views.py` is not among the provided sources.
Spec sections 4.2 and 6: `articles-list` returns all Article records with
status 200, template `articles_list.html`, context variable `items`. -/
def articleListView (store : List Article) : HttpResponse :=
  { status := 200, template := "articles_list.html",
    context := [("items", ContextVal.items store)] }

/-- Modelled from the spec: `views.py` is not among the provided sources.
Spec section 4.2: `articles-category-list` filters the articles whose
`category.slug` equals the path's slug parameter. -/
def categoryFilter (store : List Article) (slug : String) : List Article :=
  store.filter (fun a =>
    match a.category with
    | some c => c.slug == slug
    | none => false)

/-- Modelled from the spec: `views.py` is not among the provided sources.
Spec sections 4.2 and 6: the category listing always succeeds with status
200 and context variable `items` (possibly an empty sequence). -/
def articleCategoryListView (store : List Article) (slug : String) : HttpResponse :=
  { status := 200, template := "articles_list.html",
    context := [("items", ContextVal.items (categoryFilter store slug))] }

/-- Whether an article's publish date falls on exactly the given day. -/
def dateMatches (a : Article) (y m d : Nat) : Bool :=
  a.pub_date.year == y && a.pub_date.month == m && a.pub_date.day == d

/-- Modelled from the spec: `views.py` is not among the provided sources.
Spec section 4.2: the detail lookup selects the Article whose slug matches
and whose `pub_date` falls on the exact calendar day given. -/
def newsDetailLookup (store : List Article) (y m d : Nat) (slug : String) :
    Option Article :=
  store.find? (fun a => a.slug == slug && dateMatches a y m d)

/-- The successful news-detail response for one article: status 200,
template `article_detail.html`, context variable `item` (spec section 6). -/
def articleDetailResponse (a : Article) : HttpResponse :=
  { status := 200, template := "article_detail.html",
    context := [("item", ContextVal.item a)] }

/-- Modelled from the spec: `views.py` is not among the provided sources.
Spec sections 4.2, 6 and 7: `news-detail` returns the matching article or
fails with the "not found" outcome surfaced as HTTP 404. -/
def newsDetailView (store : List Article) (y m d : Nat) (slug : String) :
    Except Http404 HttpResponse :=
  match newsDetailLookup store y m d slug with
  | some a => Except.ok (articleDetailResponse a)
  | none => Except.error Http404.notFound

/-- Failure of a single-object lookup: `get_object_or_404` raises the
"not found" outcome when no row matches, and the framework's
multiple-objects error when more than one row matches. -/
inductive LookupFailure where
  | notFound
  | multipleObjectsReturned
deriving DecidableEq, Repr

/-- Modelled from the spec: `models.py` is not among the provided sources,
so the Entity Store of ArticleImage rows is a list with primary-key lookup
(spec sections 3 and 4.3).  `get_object_or_404(ArticleImage, pk=pk)` as
called by `admin.py`: the unique row with that primary key, "not found"
when there is none. -/
def get_object_or_404_image (store : List ArticleImage) (pk : Nat) :
    Except LookupFailure ArticleImage :=
  match store.filter (fun i => i.pk == pk) with
  | [] => Except.error LookupFailure.notFound
  | [obj] => Except.ok obj
  | _ :: _ :: _ => Except.error LookupFailure.multipleObjectsReturned

/-- Embedding of `ArticleAdmin.delete_file` (admin.py lines 42-44): look the image up by
primary key with `get_object_or_404` and delete it.  The result pairs the
outcome with the Entity Store after the call; a raised failure leaves the
store unchanged. -/
def delete_file (store : List ArticleImage) (pk : Nat) :
    Except LookupFailure Unit × List ArticleImage :=
  match get_object_or_404_image store pk with
  | Except.ok obj => (Except.ok (), store.filter (fun i => !(i.pk == obj.pk)))
  | Except.error e => (Except.error e, store)

/-- Concrete fixture mirroring the test data of `tests_urls.py`. -/
def testCategory : Category := { category := "Test Category", slug := "test-category" }

/-- Concrete fixture mirroring the test data of `tests_urls.py`. -/
def otherCategory : Category := { category := "Other Category", slug := "other-category" }

/-- Concrete fixture mirroring the test data of `tests_urls.py`. -/
def testArticle : Article :=
  { title := "Test Article", description := "Test Description", slug := "test-article",
    pub_date := { year := 2024, month := 1, day := 15 }, main_page := false,
    category := some testCategory }

/-- Concrete fixture mirroring the test data of `tests_urls.py`. -/
def otherArticle : Article :=
  { title := "Other Article", description := "Other Description", slug := "other-article",
    pub_date := { year := 2024, month := 2, day := 20 }, main_page := false,
    category := some otherCategory }

/-- Concrete ArticleImage fixture. -/
def testImage : ArticleImage := { pk := 1, title := "img", image := "img.png" }

theorem takeWhile_all (p : Char → Bool) :
    ∀ l : List Char, (l.takeWhile p).all p = true := by
  intro l
  induction l with
  | nil => rfl
  | cons a t ih =>
    rw [List.takeWhile_cons]
    cases hpa : p a with
    | true => simp [List.all_cons, hpa, ih]
    | false => rfl

theorem drop_takeWhile_length (p : Char → Bool) :
    ∀ l : List Char, l.drop (l.takeWhile p).length = l.dropWhile p := by
  intro l
  induction l with
  | nil => rfl
  | cons a t ih =>
    rw [List.takeWhile_cons, List.dropWhile_cons]
    cases hpa : p a with
    | true => simpa using ih
    | false => simp

theorem boundary_dropWhile (p : Char → Bool) :
    ∀ l : List Char, boundary p (l.dropWhile p) = true := by
  intro l
  induction l with
  | nil => rfl
  | cons a t ih =>
    rw [List.dropWhile_cons]
    cases hpa : p a with
    | true => simpa using ih
    | false => simp [boundary, hpa]

theorem takeWhile_all_append (p : Char → Bool) :
    ∀ (l r : List Char), l.all p = true → boundary p r = true →
      (l ++ r).takeWhile p = l := by
  intro l
  induction l with
  | nil =>
    intro r _ hr
    cases r with
    | nil => rfl
    | cons c t =>
      simp only [boundary, Bool.not_eq_true'] at hr
      simp [List.takeWhile_cons, hr]
  | cons a t ih =>
    intro r hall hr
    simp only [List.all_cons, Bool.and_eq_true] at hall
    simp [List.takeWhile_cons, hall.1, ih r hall.2 hr]

/-- Soundness: `matchParts` only succeeds on paths of the declared shape. -/
theorem matchParts_sound :
    ∀ (ps : List Part) (cs : List Char) (caps : List (List Char)),
      matchParts ps cs = some caps → Matches ps cs caps := by
  intro ps
  induction ps with
  | nil =>
    intro cs caps h
    cases cs with
    | nil =>
      simp only [matchParts, Option.some.injEq] at h
      rw [← h]
      exact Matches.nil
    | cons c t => simp [matchParts] at h
  | cons part ps ih =>
    intro cs caps h
    cases part with
    | lit l =>
      simp only [matchParts] at h
      split at h
      · next hpre =>
        obtain ⟨t, ht⟩ := List.isPrefixOf_iff_prefix.mp hpre
        subst ht
        rw [List.drop_left] at h
        exact Matches.lit l ps t caps (ih _ _ h)
      · exact absurd h (by simp)
    | conv p =>
      simp only [matchParts] at h
      split at h
      · exact absurd h (by simp)
      · next hne =>
        rw [Option.map_eq_some'] at h
        obtain ⟨caps', hrec, hcaps⟩ := h
        rw [drop_takeWhile_length] at hrec
        have hM := Matches.conv p ps (cs.takeWhile p) (cs.dropWhile p) caps'
          (by simpa using hne) (takeWhile_all p cs) (boundary_dropWhile p cs)
          (ih _ _ hrec)
        rw [List.takeWhile_append_dropWhile] at hM
        rw [← hcaps]
        exact hM

/-- Every declared-shape decomposition is found by `matchParts`. -/
theorem matchParts_complete :
    ∀ {ps : List Part} {cs : List Char} {caps : List (List Char)},
      Matches ps cs caps → matchParts ps cs = some caps := by
  intro ps cs caps h
  induction h with
  | nil => rfl
  | lit l ps cs caps _ ih =>
    have hpre : l.isPrefixOf (l ++ cs) = true :=
      List.isPrefixOf_iff_prefix.mpr ⟨cs, rfl⟩
    simp only [matchParts, hpre, if_true, List.drop_left, ih]
  | conv p ps cap cs caps hne hall hbd _ ih =>
    have htw : (cap ++ cs).takeWhile p = cap := takeWhile_all_append p cap cs hall hbd
    simp only [matchParts, htw, List.drop_left, ih, Option.map_some']
    simp [List.isEmpty_eq_false.mpr hne]

theorem matchParts_eq_none_of (ps : List Part) (cs : List Char)
    (h : ∀ caps, ¬ Matches ps cs caps) : matchParts ps cs = none := by
  cases hm : matchParts ps cs with
  | none => rfl
  | some caps => exact absurd (matchParts_sound ps cs caps hm) (h caps)

theorem matches_nil_inv {cs : List Char} {caps : List (List Char)}
    (h : Matches [] cs caps) : cs = [] ∧ caps = [] := by
  cases h
  exact ⟨rfl, rfl⟩

theorem matches_lit_inv {l : List Char} {ps : List Part} {cs : List Char}
    {caps : List (List Char)} (h : Matches (Part.lit l :: ps) cs caps) :
    ∃ cs', cs = l ++ cs' ∧ Matches ps cs' caps := by
  cases h with
  | lit _ _ cs' _ h' => exact ⟨cs', rfl, h'⟩

theorem matches_conv_inv {p : Char → Bool} {ps : List Part} {cs : List Char}
    {caps : List (List Char)} (h : Matches (Part.conv p :: ps) cs caps) :
    ∃ cap cs' caps', cs = cap ++ cs' ∧ caps = cap :: caps' ∧ cap ≠ [] ∧
      cap.all p = true ∧ boundary p cs' = true ∧ Matches ps cs' caps' := by
  cases h with
  | conv _ _ cap cs' caps' h1 h2 h3 h4 =>
    exact ⟨cap, cs', caps', rfl, rfl, h1, h2, h3, h4⟩

theorem matches_home_inv {cs : List Char} {caps : List (List Char)}
    (h : Matches homeParts cs caps) : cs = [] :=
  (matches_nil_inv h).1

theorem matches_list_inv {cs : List Char} {caps : List (List Char)}
    (h : Matches articlesListParts cs caps) : cs = "articles".data := by
  obtain ⟨cs', hcs, h'⟩ := matches_lit_inv h
  obtain ⟨hnil, -⟩ := matches_nil_inv h'
  subst hnil
  simpa using hcs

theorem matches_category_inv {cs : List Char} {caps : List (List Char)}
    (h : Matches categoryListParts cs caps) :
    ∃ s, cs = categoryPath s ∧ s ≠ [] ∧ s.all isSlugChar = true ∧ caps = [s] := by
  obtain ⟨cs₁, hcs, h₁⟩ := matches_lit_inv h
  obtain ⟨cap, cs₂, caps₂, hcs₁, hcaps, hne, hall, -, h₂⟩ := matches_conv_inv h₁
  obtain ⟨cs₃, hcs₂, h₃⟩ := matches_lit_inv h₂
  obtain ⟨hnil, hcaps₂⟩ := matches_nil_inv h₃
  subst hnil
  subst hcs₂
  subst hcs₁
  subst hcs
  subst hcaps₂
  subst hcaps
  exact ⟨cap, rfl, hne, hall, rfl⟩

theorem matches_news_inv {cs : List Char} {caps : List (List Char)}
    (h : Matches newsDetailParts cs caps) :
    ∃ y m d s, cs = newsPath y m d s ∧
      y ≠ [] ∧ y.all isIntChar = true ∧ m ≠ [] ∧ m.all isIntChar = true ∧
      d ≠ [] ∧ d.all isIntChar = true ∧ s ≠ [] ∧ s.all isSlugChar = true ∧
      caps = [y, m, d, s] := by
  obtain ⟨cs₁, hcs, h₁⟩ := matches_lit_inv h
  obtain ⟨y, cs₂, caps₂, hcs₁, hcaps, hy1, hy2, -, h₂⟩ := matches_conv_inv h₁
  obtain ⟨cs₃, hcs₂, h₃⟩ := matches_lit_inv h₂
  obtain ⟨m, cs₄, caps₄, hcs₃, hcaps₂, hm1, hm2, -, h₄⟩ := matches_conv_inv h₃
  obtain ⟨cs₅, hcs₄, h₅⟩ := matches_lit_inv h₄
  obtain ⟨d, cs₆, caps₆, hcs₅, hcaps₄, hd1, hd2, -, h₆⟩ := matches_conv_inv h₅
  obtain ⟨cs₇, hcs₆, h₇⟩ := matches_lit_inv h₆
  obtain ⟨s, cs₈, caps₈, hcs₇, hcaps₆, hs1, hs2, -, h₈⟩ := matches_conv_inv h₇
  obtain ⟨cs₉, hcs₈, h₉⟩ := matches_lit_inv h₈
  obtain ⟨hnil, hcaps₈⟩ := matches_nil_inv h₉
  subst hnil
  subst hcs₈
  subst hcs₇
  subst hcs₆
  subst hcs₅
  subst hcs₄
  subst hcs₃
  subst hcs₂
  subst hcs₁
  subst hcs
  subst hcaps₈
  subst hcaps₆
  subst hcaps₄
  subst hcaps₂
  subst hcaps
  exact ⟨y, m, d, s, rfl, hy1, hy2, hm1, hm2, hd1, hd2, hs1, hs2, rfl⟩

/-- A slash-free segment in front of a slash is determined uniquely. -/
theorem seg_uniq :
    ∀ {l₁ : List Char} {l₂ r₁ r₂ : List Char},
      l₁ ++ '/' :: r₁ = l₂ ++ '/' :: r₂ → '/' ∉ l₁ → '/' ∉ l₂ →
        l₁ = l₂ ∧ r₁ = r₂ := by
  intro l₁
  induction l₁ with
  | nil =>
    intro l₂ r₁ r₂ h h1 h2
    cases l₂ with
    | nil =>
      simp only [List.nil_append, List.cons.injEq] at h
      exact ⟨rfl, h.2⟩
    | cons b t =>
      simp only [List.nil_append, List.cons_append, List.cons.injEq] at h
      obtain ⟨hb, -⟩ := h
      subst hb
      exact absurd (List.mem_cons_self _ _) h2
  | cons a t ih =>
    intro l₂ r₁ r₂ h h1 h2
    cases l₂ with
    | nil =>
      simp only [List.cons_append, List.nil_append, List.cons.injEq] at h
      obtain ⟨ha, -⟩ := h
      subst ha
      exact absurd (List.mem_cons_self _ _) h1
    | cons b t₂ =>
      simp only [List.cons_append, List.cons.injEq] at h
      obtain ⟨hab, h'⟩ := h
      simp only [List.mem_cons, not_or] at h1 h2
      obtain ⟨ht, hr⟩ := ih h' h1.2 h2.2
      rw [hab, ht]
      exact ⟨rfl, hr⟩

theorem not_mem_of_all {l : List Char} {p : Char → Bool} {c : Char}
    (hall : l.all p = true) (hc : p c = false) : c ∉ l := by
  intro hm
  have := List.all_eq_true.mp hall c hm
  rw [hc] at this
  exact Bool.false_ne_true this

theorem isIntSegment_iff {l : List Char} :
    isIntSegment l = true ↔ l ≠ [] ∧ l.all isIntChar = true := by
  cases l <;> simp [isIntSegment]

theorem newsPath_ne_nil {y m d s : List Char} : newsPath y m d s ≠ [] := by
  intro h
  rw [newsPath] at h
  exact absurd (List.append_eq_nil.mp (List.append_eq_nil.mp h).1).1 (by decide)

theorem categoryPath_ne_nil {s : List Char} : categoryPath s ≠ [] := by
  intro h
  rw [categoryPath] at h
  exact absurd (List.append_eq_nil.mp (List.append_eq_nil.mp h).1).1 (by decide)

theorem not_matches_home_of_ne_nil {cs : List Char} (h : cs ≠ []) :
    ∀ caps, ¬ Matches homeParts cs caps :=
  fun _ hM => h (matches_home_inv hM)

theorem not_matches_list_of_long {cs : List Char} (h : 9 ≤ cs.length) :
    ∀ caps, ¬ Matches articlesListParts cs caps := by
  intro caps hM
  have h8 := matches_list_inv hM
  have hlen : ("articles".data : List Char).length = 8 := by decide
  rw [h8, hlen] at h
  omega

theorem newsPath_long {y m d s : List Char} : 9 ≤ (newsPath y m d s).length := by
  have h9 : ("articles/".data : List Char).length = 9 := by decide
  simp only [newsPath, List.length_append, List.length_cons, h9]
  omega

theorem categoryPath_long {s : List Char} : 9 ≤ (categoryPath s).length := by
  have h18 : ("articles/category/".data : List Char).length = 18 := by decide
  simp only [categoryPath, List.length_append, List.length_cons, h18]
  omega

/-- A category-list-shaped path and a news-detail-shaped path never
coincide when the shapes' segments are slash-free. -/
theorem categoryPath_ne_newsPath {t y m d s : List Char}
    (ht : '/' ∉ t) (hy : '/' ∉ y) (hm : '/' ∉ m) :
    categoryPath t ≠ newsPath y m d s := by
  intro h
  have hsplit : ("articles/category/".data : List Char) =
      "articles/".data ++ "category".data ++ ['/'] := by decide
  rw [categoryPath, newsPath, hsplit] at h
  simp only [List.append_assoc, List.singleton_append] at h
  have h1 := List.append_cancel_left h
  have hcat : ('/' : Char) ∉ "category".data := by decide
  obtain ⟨-, h2⟩ := seg_uniq h1 hcat hy
  obtain ⟨-, h3⟩ := seg_uniq h2 ht hm
  exact absurd (List.append_eq_nil.mp h3.symm).2 (by simp)

/-- A news-detail-shaped path whose year segment is all digits is never a
category-list-shaped path: the literal segment `category` is not digits. -/
theorem categoryPath_ne_newsPath_int {t y m d s : List Char}
    (hy : y.all isIntChar = true) : categoryPath t ≠ newsPath y m d s := by
  intro h
  have hsplit : ("articles/category/".data : List Char) =
      "articles/".data ++ "category".data ++ ['/'] := by decide
  rw [categoryPath, newsPath, hsplit] at h
  simp only [List.append_assoc, List.singleton_append] at h
  have h1 := List.append_cancel_left h
  have hcat : ('/' : Char) ∉ "category".data := by decide
  obtain ⟨hcy, -⟩ := seg_uniq h1 hcat (not_mem_of_all hy (by decide))
  rw [← hcy] at hy
  exact absurd hy (by decide)

theorem categoryPath_inj {t t' : List Char} (h : categoryPath t = categoryPath t') :
    t = t' := by
  rw [categoryPath, categoryPath] at h
  exact List.append_cancel_left (List.append_cancel_right h)

theorem newsPath_inj {y m d s y' m' d' s' : List Char}
    (hy : '/' ∉ y) (hm : '/' ∉ m) (hd : '/' ∉ d)
    (hy' : '/' ∉ y') (hm' : '/' ∉ m') (hd' : '/' ∉ d')
    (h : newsPath y m d s = newsPath y' m' d' s') :
    y = y' ∧ m = m' ∧ d = d' ∧ s = s' := by
  rw [newsPath, newsPath] at h
  simp only [List.append_assoc] at h
  have h1 := List.append_cancel_left h
  obtain ⟨e1, h2⟩ := seg_uniq h1 hy hy'
  obtain ⟨e2, h3⟩ := seg_uniq h2 hm hm'
  obtain ⟨e3, h4⟩ := seg_uniq h3 hd hd'
  exact ⟨e1, e2, e3, List.append_cancel_right h4⟩

theorem resolvePath_eq_none {cs : List Char}
    (h1 : ∀ caps, ¬ Matches homeParts cs caps)
    (h2 : ∀ caps, ¬ Matches articlesListParts cs caps)
    (h3 : ∀ caps, ¬ Matches categoryListParts cs caps)
    (h4 : ∀ caps, ¬ Matches newsDetailParts cs caps) :
    resolvePath cs = none := by
  simp only [resolvePath, matchParts_eq_none_of _ _ h1, matchParts_eq_none_of _ _ h2,
    matchParts_eq_none_of _ _ h3, matchParts_eq_none_of _ _ h4]

theorem resolvePath_eq_news {cs y m d s : List Char}
    (h1 : ∀ caps, ¬ Matches homeParts cs caps)
    (h2 : ∀ caps, ¬ Matches articlesListParts cs caps)
    (h3 : ∀ caps, ¬ Matches categoryListParts cs caps)
    (h4 : matchParts newsDetailParts cs = some [y, m, d, s]) :
    resolvePath cs = some (Resolved.newsDetail (decimalValue y) (decimalValue m)
      (decimalValue d) (String.mk s)) := by
  simp only [resolvePath, matchParts_eq_none_of _ _ h1, matchParts_eq_none_of _ _ h2,
    matchParts_eq_none_of _ _ h3, h4, List.getD_cons_zero, List.getD_cons_succ]

/-- The `news-detail` pattern accepts every path of its shape whose date
segments are digit runs and whose slug segment is in the slug class. -/
theorem matches_newsPath {y m d s : List Char}
    (hy1 : y ≠ []) (hy2 : y.all isIntChar = true)
    (hm1 : m ≠ []) (hm2 : m.all isIntChar = true)
    (hd1 : d ≠ []) (hd2 : d.all isIntChar = true)
    (hs1 : s ≠ []) (hs2 : s.all isSlugChar = true) :
    Matches newsDetailParts (newsPath y m d s) [y, m, d, s] := by
  show Matches newsDetailParts
    ("articles/".data ++ (y ++ '/' :: (m ++ '/' :: (d ++ '/' :: (s ++ ['/'])))))
    [y, m, d, s]
  exact Matches.lit _ _ _ _
    (Matches.conv _ _ y _ _ hy1 hy2 rfl
      (Matches.lit "/".data _ _ _
        (Matches.conv _ _ m _ _ hm1 hm2 rfl
          (Matches.lit "/".data _ _ _
            (Matches.conv _ _ d _ _ hd1 hd2 rfl
              (Matches.lit "/".data _ _ _
                (Matches.conv _ _ s _ _ hs1 hs2 rfl
                  (Matches.lit "/".data _ [] _ Matches.nil))))))))

/-- The `articles-category-list` pattern accepts every path of its shape
whose slug segment is a nonempty run from the slug class. -/
theorem matches_categoryPath {s : List Char}
    (hs1 : s ≠ []) (hs2 : s.all isSlugChar = true) :
    Matches categoryListParts (categoryPath s) [s] := by
  show Matches categoryListParts ("articles/category/".data ++ (s ++ ['/'])) [s]
  exact Matches.lit _ _ _ _
    (Matches.conv _ _ s _ _ hs1 hs2 rfl
      (Matches.lit "/".data _ [] _ Matches.nil))

theorem digitChar_int (d : Nat) : isIntChar (digitChar d) = true := by
  have h : d % 10 < 10 := Nat.mod_lt _ (by decide)
  rw [digitChar]
  set k := d % 10 with hk
  interval_cases k <;> decide

theorem natDecimalAux_all :
    ∀ (fuel n : Nat) (acc : List Char), acc.all isIntChar = true →
      (natDecimalAux fuel n acc).all isIntChar = true := by
  intro fuel
  induction fuel with
  | zero => intro n acc h; exact h
  | succ fuel ih =>
    intro n acc h
    simp only [natDecimalAux]
    split
    · exact h
    · exact ih _ _ (by simp [List.all_cons, digitChar_int, h])

theorem natDecimalAux_ne_nil :
    ∀ (fuel n : Nat) (acc : List Char), acc ≠ [] → natDecimalAux fuel n acc ≠ [] := by
  intro fuel
  induction fuel with
  | zero => intro n acc h; exact h
  | succ fuel ih =>
    intro n acc h
    simp only [natDecimalAux]
    split
    · exact h
    · exact ih _ _ (by simp)

theorem natDecimal_all (n : Nat) : (natDecimal n).all isIntChar = true := by
  rw [natDecimal]
  split
  · decide
  · exact natDecimalAux_all n n [] rfl

theorem natDecimal_ne_nil (n : Nat) : natDecimal n ≠ [] := by
  rw [natDecimal]
  split
  · simp
  · next h =>
    cases n with
    | zero => exact absurd rfl h
    | succ k =>
      simp only [natDecimalAux]
      split
      · next h0 => exact absurd h0 h
      · exact natDecimalAux_ne_nil k ((k + 1) / 10) _ (by simp)

/-- Reverse construction succeeds and returns the slash-prefixed candidate
whenever the substituted candidate re-matches the pattern. -/
theorem reversePath_eq_of_matches {ps : List Part} {args caps : List (List Char)}
    (h : Matches ps (buildPath ps args) caps) :
    reversePath ps args = some (String.mk ('/' :: buildPath ps args)) := by
  rw [reversePath]
  simp only [matchParts_complete h, Option.isSome_some, if_true]

/-- C5: a news-detail-shaped request path (slash-free segments) one of
whose year/month/day segments is not a well-formed integer (nonempty digit
run) is a route-resolution failure -- `resolvePath` returns `none`, the
"not found" outcome, never any other error kind. -/
theorem c5_malformed_int_not_found {y m d s : List Char}
    (hy : '/' ∉ y) (hm : '/' ∉ m) (hd : '/' ∉ d)
    (hbad : ¬(isIntSegment y = true ∧ isIntSegment m = true ∧ isIntSegment d = true)) :
    resolvePath (newsPath y m d s) = none := by
  apply resolvePath_eq_none
  · exact not_matches_home_of_ne_nil newsPath_ne_nil
  · exact not_matches_list_of_long newsPath_long
  · intro caps hM
    obtain ⟨t, hEq, -, ht2, -⟩ := matches_category_inv hM
    exact categoryPath_ne_newsPath (not_mem_of_all ht2 (by decide)) hy hm hEq.symm
  · intro caps hM
    obtain ⟨y', m', d', s', hEq, hy1', hy2', hm1', hm2', hd1', hd2', -, -, -⟩ :=
      matches_news_inv hM
    obtain ⟨e1, e2, e3, -⟩ := newsPath_inj hy hm hd
      (not_mem_of_all hy2' (by decide)) (not_mem_of_all hm2' (by decide))
      (not_mem_of_all hd2' (by decide)) hEq
    refine hbad ⟨?_, ?_, ?_⟩
    · rw [e1]; exact isIntSegment_iff.mpr ⟨hy1', hy2'⟩
    · rw [e2]; exact isIntSegment_iff.mpr ⟨hm1', hm2'⟩
    · rw [e3]; exact isIntSegment_iff.mpr ⟨hd1', hd2'⟩

theorem c5_witness :
    resolvePath (newsPath "20a4".data "1".data "15".data "test-article".data) = none :=
  c5_malformed_int_not_found (by decide) (by decide) (by decide) (by decide)

/-- C6 counterexample: a news-detail path whose month segment is the digit
`0` still resolves to the `news-detail` operation with month parameter 0,
so the route does not require its date segments to be strictly positive. -/
theorem c6_counterexample :
    resolve "/articles/2024/0/1/test-article/" =
      some (Resolved.newsDetail 2024 0 1 "test-article") := by decide

/-- C6 (amended): the year/month/day parameters of `news-detail` are
nonnegative integers: the route matches a path of its shape exactly when
each date segment is a nonempty run of decimal digits -- the value zero
included -- and the extracted parameters are those segments' decimal
values. -/
theorem c6_news_detail_int_segments {y m d s : List Char}
    (hy : isIntSegment y = true) (hm : isIntSegment m = true)
    (hd : isIntSegment d = true) (hs1 : s ≠ []) (hs2 : s.all isSlugChar = true) :
    resolvePath (newsPath y m d s) =
      some (Resolved.newsDetail (decimalValue y) (decimalValue m) (decimalValue d)
        (String.mk s)) := by
  obtain ⟨hy1, hy2⟩ := isIntSegment_iff.mp hy
  obtain ⟨hm1, hm2⟩ := isIntSegment_iff.mp hm
  obtain ⟨hd1, hd2⟩ := isIntSegment_iff.mp hd
  apply resolvePath_eq_news
  · exact not_matches_home_of_ne_nil newsPath_ne_nil
  · exact not_matches_list_of_long newsPath_long
  · intro caps hM
    obtain ⟨t, hEq, -, -, -⟩ := matches_category_inv hM
    exact categoryPath_ne_newsPath_int hy2 hEq.symm
  · exact matchParts_complete (matches_newsPath hy1 hy2 hm1 hm2 hd1 hd2 hs1 hs2)

theorem c6_witness :
    resolvePath (newsPath "2024".data "0".data "7".data "x_1".data) =
      some (Resolved.newsDetail (decimalValue "2024".data) (decimalValue "0".data)
        (decimalValue "7".data) (String.mk "x_1".data)) :=
  c6_news_detail_int_segments (by decide) (by decide) (by decide) (by decide) (by decide)

/-- C9: the slug-taking routes accept only slugs of ASCII letters, digits,
hyphens and underscores: a category-list-shaped or news-detail-shaped path
whose slug segment contains any character outside that class resolves to
"not found". -/
theorem c9_slug_charset {s y m d : List Char}
    (hbad : ¬ s.all isSlugChar = true)
    (hy : isIntSegment y = true) (hm : isIntSegment m = true)
    (hd : isIntSegment d = true) :
    resolvePath (categoryPath s) = none ∧ resolvePath (newsPath y m d s) = none := by
  obtain ⟨hy1, hy2⟩ := isIntSegment_iff.mp hy
  obtain ⟨hm1, hm2⟩ := isIntSegment_iff.mp hm
  obtain ⟨hd1, hd2⟩ := isIntSegment_iff.mp hd
  constructor
  · apply resolvePath_eq_none
    · exact not_matches_home_of_ne_nil categoryPath_ne_nil
    · exact not_matches_list_of_long categoryPath_long
    · intro caps hM
      obtain ⟨t, hEq, -, ht2, -⟩ := matches_category_inv hM
      obtain rfl := categoryPath_inj hEq
      exact hbad ht2
    · intro caps hM
      obtain ⟨y', m', d', s', hEq, -, hy2', -, -, -, -, -, -, -⟩ := matches_news_inv hM
      exact categoryPath_ne_newsPath_int hy2' hEq
  · apply resolvePath_eq_none
    · exact not_matches_home_of_ne_nil newsPath_ne_nil
    · exact not_matches_list_of_long newsPath_long
    · intro caps hM
      obtain ⟨t, hEq, -, -, -⟩ := matches_category_inv hM
      exact categoryPath_ne_newsPath_int hy2 hEq.symm
    · intro caps hM
      obtain ⟨y', m', d', s', hEq, -, hy2', -, hm2', -, hd2', -, hs2', -⟩ :=
        matches_news_inv hM
      obtain ⟨-, -, -, rfl⟩ := newsPath_inj (not_mem_of_all hy2 (by decide))
        (not_mem_of_all hm2 (by decide)) (not_mem_of_all hd2 (by decide))
        (not_mem_of_all hy2' (by decide)) (not_mem_of_all hm2' (by decide))
        (not_mem_of_all hd2' (by decide)) hEq
      exact hbad hs2'

theorem c9_witness :
    resolvePath (categoryPath "bad.slug".data) = none ∧
    resolvePath (newsPath "2024".data "1".data "15".data "bad.slug".data) = none :=
  c9_slug_charset (by decide) (by decide) (by decide) (by decide)

/-- C10: route resolution is exact on trailing slashes, mirroring the
reverse-construction asymmetry: `/articles` resolves to `articles-list`,
`/articles/` resolves to nothing, and a category path missing its trailing
slash resolves to nothing. -/
theorem c10_trailing_slash :
    resolve "/articles" = some Resolved.articlesList ∧
    resolve "/articles/" = none ∧
    ∀ s : List Char, s.all isSlugChar = true →
      resolvePath ("articles/category/".data ++ s) = none := by
  refine ⟨by decide, by decide, ?_⟩
  intro s hs
  apply resolvePath_eq_none
  · apply not_matches_home_of_ne_nil
    intro h
    exact absurd (List.append_eq_nil.mp h).1 (by decide)
  · apply not_matches_list_of_long
    have h18 : ("articles/category/".data : List Char).length = 18 := by decide
    simp only [List.length_append, h18]
    omega
  · intro caps hM
    obtain ⟨t, hEq, -, -, -⟩ := matches_category_inv hM
    rw [categoryPath, List.append_assoc] at hEq
    have h1 : s = t ++ ['/'] := List.append_cancel_left hEq
    have h2 : ('/' : Char) ∈ s := by
      rw [h1]
      exact List.mem_append_right t (by simp)
    exact absurd h2 (not_mem_of_all hs (by decide))
  · intro caps hM
    obtain ⟨y', m', d', s', hEq, -, hy2', -, -, -, -, -, -, -⟩ := matches_news_inv hM
    have hsplit : ("articles/category/".data : List Char) =
        "articles/".data ++ "category".data ++ ['/'] := by decide
    rw [newsPath, hsplit] at hEq
    simp only [List.append_assoc, List.singleton_append] at hEq
    have h1 := List.append_cancel_left hEq
    obtain ⟨hcy, -⟩ := seg_uniq h1 (by decide) (not_mem_of_all hy2' (by decide))
    rw [← hcy] at hy2'
    exact absurd hy2' (by decide)

theorem c10_witness :
    resolvePath ("articles/category/".data ++ "test-category".data) = none :=
  c10_trailing_slash.2.2 "test-category".data (by decide)

/-- C2: reverse construction produces exactly the documented paths for
every valid parameter assignment, preserving the trailing-slash asymmetry:
`articles-list` is built without a trailing slash while the other three
routes end in one. -/
theorem c2_reverse_construction :
    reverseHome = some "/" ∧
    reverseArticlesList = some "/articles" ∧
    (∀ s : String, s.data ≠ [] → s.data.all isSlugChar = true →
      reverseCategoryList s = some ("/articles/category/" ++ s ++ "/")) ∧
    (∀ (y m d : Nat) (s : String), s.data ≠ [] → s.data.all isSlugChar = true →
      reverseNewsDetail y m d s =
        some ("/articles/" ++ String.mk (natDecimal y) ++ "/" ++
          String.mk (natDecimal m) ++ "/" ++ String.mk (natDecimal d) ++ "/" ++
          s ++ "/")) := by
  refine ⟨by decide, by decide, ?_, ?_⟩
  · intro s h1 h2
    have hM : Matches categoryListParts (buildPath categoryListParts [s.data]) [s.data] :=
      matches_categoryPath h1 h2
    rw [reverseCategoryList, reversePath_eq_of_matches hM]
    refine congrArg some (String.ext ?_)
    simp only [String.data_append, List.append_assoc, buildPath, categoryListParts,
      List.headD_cons, List.tail_cons]
    rfl
  · intro y m d s h1 h2
    have hM : Matches newsDetailParts
        (buildPath newsDetailParts [natDecimal y, natDecimal m, natDecimal d, s.data])
        [natDecimal y, natDecimal m, natDecimal d, s.data] :=
      matches_newsPath (natDecimal_ne_nil y) (natDecimal_all y)
        (natDecimal_ne_nil m) (natDecimal_all m) (natDecimal_ne_nil d)
        (natDecimal_all d) h1 h2
    rw [reverseNewsDetail, reversePath_eq_of_matches hM]
    refine congrArg some (String.ext ?_)
    simp only [String.data_append, List.append_assoc, buildPath, newsDetailParts,
      List.headD_cons, List.tail_cons]
    rfl

theorem c2_witness :
    reverseCategoryList "test-slug" = some "/articles/category/test-slug/" ∧
    reverseNewsDetail 2024 1 15 "test-article" = some "/articles/2024/1/15/test-article/" :=
  ⟨Eq.trans (c2_reverse_construction.2.2.1 "test-slug" (by decide) (by decide))
      (by decide),
    Eq.trans (c2_reverse_construction.2.2.2 2024 1 15 "test-article" (by decide)
      (by decide)) (by decide)⟩

theorem find_eq_some_of_unique {α : Type} (p : α → Bool) :
    ∀ (l : List α) (a : α), a ∈ l → p a = true →
      (∀ b ∈ l, p b = true → b = a) → l.find? p = some a := by
  intro l
  induction l with
  | nil => intro a ha _ _; exact absurd ha (by simp)
  | cons x t ih =>
    intro a ha hpa huniq
    by_cases hx : p x = true
    · rw [List.find?_cons_of_pos t hx]
      exact congrArg some (huniq x (List.mem_cons_self x t) hx)
    · rw [List.find?_cons_of_neg t hx]
      rcases List.mem_cons.mp ha with rfl | hat
      · exact absurd hpa hx
      · exact ih a hat hpa (fun b hb hpb => huniq b (List.mem_cons_of_mem x hb) hpb)

/-- C1: `news-detail` returns the article whose slug equals the given slug
and whose publish date falls on exactly the given calendar day, and fails
with "not found" (HTTP 404) if and only if either no article has that slug
or an article with that slug exists whose publish date does not match the
given year/month/day exactly (under the spec's lookup-time assumption that
the slug picks out at most one stored article). -/
theorem c1_news_detail_contract (store : List Article) (y m d : Nat) (S : String)
    (huniq : ∀ a ∈ store, ∀ b ∈ store, a.slug = S → b.slug = S → a = b) :
    (∀ a ∈ store, a.slug = S → dateMatches a y m d = true →
      newsDetailView store y m d S = Except.ok (articleDetailResponse a)) ∧
    (newsDetailView store y m d S = Except.error Http404.notFound ↔
      ((¬ ∃ a ∈ store, a.slug = S) ∨
        (∃ a ∈ store, a.slug = S ∧ dateMatches a y m d = false))) := by
  constructor
  · intro a ha hs hd
    have hp : (a.slug == S && dateMatches a y m d) = true := by simp [hs, hd]
    have hfind : newsDetailLookup store y m d S = some a := by
      apply find_eq_some_of_unique _ store a ha hp
      intro b hb hpb
      simp only [Bool.and_eq_true, beq_iff_eq] at hpb
      exact huniq b hb a ha hpb.1 hs
    simp [newsDetailView, hfind]
  · constructor
    · intro herr
      cases hl : newsDetailLookup store y m d S with
      | some a => simp [newsDetailView, hl] at herr
      | none =>
        have hall := List.find?_eq_none.mp hl
        by_cases hex : ∃ a ∈ store, a.slug = S
        · obtain ⟨a, ha, hs⟩ := hex
          have hna := hall a ha
          simp only [Bool.and_eq_true, beq_iff_eq, not_and] at hna
          refine Or.inr ⟨a, ha, hs, ?_⟩
          cases hdm : dateMatches a y m d with
          | false => rfl
          | true => exact absurd hdm (hna hs)
        · exact Or.inl hex
    · intro h
      have hl : newsDetailLookup store y m d S = none := by
        apply List.find?_eq_none.mpr
        intro a ha hpa
        simp only [Bool.and_eq_true, beq_iff_eq] at hpa
        cases h with
        | inl hno => exact hno ⟨a, ha, hpa.1⟩
        | inr hex =>
          obtain ⟨b, hb, hbs, hbd⟩ := hex
          have hab : a = b := huniq a ha b hb hpa.1 hbs
          rw [hab] at hpa
          rw [hpa.2] at hbd
          exact Bool.noConfusion hbd
      simp [newsDetailView, hl]

theorem c1_witness :
    newsDetailView [testArticle] 2024 1 15 "test-article" =
      Except.ok (articleDetailResponse testArticle) :=
  (c1_news_detail_contract [testArticle] 2024 1 15 "test-article" (by decide)).1
    testArticle (by decide) (by decide) (by decide)

/-- C3: for every category, the category listing returns exactly the
stored articles whose category reference is that category and no article
of any other category, assuming (data-model invariant) that the category's
slug identifies it uniquely among the categories articles refer to. -/
theorem c3_category_isolation (store : List Article) (c : Category)
    (huniq : ∀ a ∈ store, ∀ c', a.category = some c' → c'.slug = c.slug → c' = c) :
    (articleCategoryListView store c.slug).context =
      [("items", ContextVal.items (store.filter (fun a => a.category == some c)))] := by
  have hfilter : categoryFilter store c.slug =
      store.filter (fun a => a.category == some c) := by
    apply List.filter_congr
    intro a ha
    cases hc : a.category with
    | none => simp
    | some c' =>
      simp only
      by_cases hs : c'.slug = c.slug
      · have hcc : c' = c := huniq a ha c' hc hs
        subst hcc
        simp [hs]
      · have hne : c' ≠ c := fun h => hs (h ▸ rfl)
        have h1 : (c'.slug == c.slug) = false := beq_eq_false_iff_ne.mpr hs
        have h2 : ((some c' : Option Category) == some c) = false :=
          beq_eq_false_iff_ne.mpr (fun h => hne (Option.some_inj.mp h))
        rw [h1, h2]
  simp [articleCategoryListView, hfilter]

theorem c3_witness :
    (articleCategoryListView [testArticle, otherArticle] "test-category").context =
      [("items", ContextVal.items [testArticle])] :=
  Eq.trans
    (c3_category_isolation [testArticle, otherArticle] testCategory (by decide))
    (by decide)

/-- C4: the category listing never fails at this level: for every slug it
answers with success status 200, and whenever no stored article references
a category carrying that slug (no such Category exists, or it has zero
articles) the rendered item sequence is empty. -/
theorem c4_category_list_never_404 (store : List Article) (s : String) :
    (articleCategoryListView store s).status = 200 ∧
    ((∀ a ∈ store, ∀ c, a.category = some c → c.slug ≠ s) →
      (articleCategoryListView store s).context = [("items", ContextVal.items [])]) := by
  constructor
  · rfl
  · intro h
    have hfilter : categoryFilter store s = [] := by
      apply List.filter_eq_nil_iff.mpr
      intro a ha
      cases hc : a.category with
      | none => simp
      | some c =>
        simp only [beq_iff_eq]
        exact h a ha c hc
    simp [articleCategoryListView, hfilter]

theorem c4_witness :
    (articleCategoryListView [testArticle] "nonexistent-category").status = 200 ∧
    (articleCategoryListView [testArticle] "nonexistent-category").context =
      [("items", ContextVal.items [])] :=
  ⟨(c4_category_list_never_404 [testArticle] "nonexistent-category").1,
    (c4_category_list_never_404 [testArticle] "nonexistent-category").2 (by decide)⟩

/-- C7: for every successful request the context handed to the
Presentation Layer binds exactly the name `items` to the article sequence
in both listing operations and exactly the name `item` to the single
article in the news-detail operation. -/
theorem c7_context_variable_names (store : List Article) (s : String)
    (y m d : Nat) (slug : String) :
    (articleListView store).context = [("items", ContextVal.items store)] ∧
    (articleCategoryListView store s).context =
      [("items", ContextVal.items (categoryFilter store s))] ∧
    (∀ r, newsDetailView store y m d slug = Except.ok r →
      ∃ a, r.context = [("item", ContextVal.item a)]) := by
  refine ⟨rfl, rfl, ?_⟩
  intro r hr
  cases hl : newsDetailLookup store y m d slug with
  | some a =>
    simp only [newsDetailView, hl, Except.ok.injEq] at hr
    exact ⟨a, by rw [← hr]; rfl⟩
  | none => simp [newsDetailView, hl] at hr

theorem c7_witness :
    ∃ a, (articleDetailResponse testArticle).context = [("item", ContextVal.item a)] :=
  (c7_context_variable_names [testArticle] "test-category" 2024 1 15 "test-article").2.2
    (articleDetailResponse testArticle) rfl

/-- C8: `delete_file` removes exactly the stored image whose primary key
is `pk` when precisely one such image exists, and fails with "not found"
leaving the Entity Store unchanged when no stored image carries that key. -/
theorem c8_delete_file_contract (store : List ArticleImage) (pk : Nat) :
    (∀ img, store.filter (fun i => i.pk == pk) = [img] →
      delete_file store pk = (Except.ok (), store.filter (fun i => !(i.pk == pk)))) ∧
    ((∀ i ∈ store, i.pk ≠ pk) →
      delete_file store pk = (Except.error LookupFailure.notFound, store)) := by
  constructor
  · intro img himg
    have hmem : img ∈ store.filter (fun i => i.pk == pk) := by rw [himg]; simp
    have hpk : img.pk = pk := by
      have hp := (List.mem_filter.mp hmem).2
      simpa using hp
    have hget : get_object_or_404_image store pk = Except.ok img := by
      rw [get_object_or_404_image, himg]
    simp only [delete_file, hget]
    rw [hpk]
  · intro h
    have hfilter : store.filter (fun i => i.pk == pk) = [] := by
      apply List.filter_eq_nil_iff.mpr
      intro i hi
      simp only [beq_iff_eq]
      exact h i hi
    have hget : get_object_or_404_image store pk = Except.error LookupFailure.notFound := by
      rw [get_object_or_404_image, hfilter]
    rw [delete_file, hget]

theorem c8_witness :
    delete_file [testImage] 1 = (Except.ok (), []) ∧
    delete_file [testImage] 2 = (Except.error LookupFailure.notFound, [testImage]) :=
  ⟨Eq.trans ((c8_delete_file_contract [testImage] 1).1 testImage (by decide)) rfl,
    (c8_delete_file_contract [testImage] 2).2 (by decide)⟩

end Blog
